import Mathlib

/-!
Verification of the replay-buffer / target-network subsystem of the
rl-basics repository (DQN agent in `models/dqn/dqn.py`, DDPG training
loop in `models/ddpg/engine.py`), shallowly embedded in Lean 4.

Scalars are modelled as `ℚ`; neural networks are treated as opaque
functions of their inputs, and their parameter tensors as flattened
lists of scalars.
-/

namespace RLBasics

/-- A transition record as stored by `DQN.remember`:
`[state, action, reward, new_state, done]`. -/
structure Transition (σ α : Type) where
  state : σ
  action : α
  reward : ℚ
  nextState : σ
  done : Bool
deriving DecidableEq, Repr

/-! ## MLP parameters

`MLP` (dqn.py lines 12-52) holds exactly four linear layers `fc1..fc4`,
each with a weight tensor and a bias tensor, and a parameterless
nonlinearity; so its full parameter set is exactly these eight tensors,
modelled as flattened lists of scalars. -/

structure MLPParams where
  fc1w : List ℚ
  fc1b : List ℚ
  fc2w : List ℚ
  fc2b : List ℚ
  fc3w : List ℚ
  fc3b : List ℚ
  fc4w : List ℚ
  fc4b : List ℚ
deriving DecidableEq, Repr

/-- Elementwise soft blend of one parameter tensor, as in each line of
`DQN.target_train`: `model.data * tau + target.data * (1 - tau)`. -/
def blend (tau : ℚ) (live target : List ℚ) : List ℚ :=
  List.zipWith (fun l t => l * tau + t * (1 - tau)) live target

/-- `DQN.target_train` (dqn.py lines 144-154): blends every one of the
eight parameter tensors of the target model toward the live model. -/
def target_train (tau : ℚ) (model target : MLPParams) : MLPParams where
  fc1w := blend tau model.fc1w target.fc1w
  fc1b := blend tau model.fc1b target.fc1b
  fc2w := blend tau model.fc2w target.fc2w
  fc2b := blend tau model.fc2b target.fc2b
  fc3w := blend tau model.fc3w target.fc3w
  fc3b := blend tau model.fc3b target.fc3b
  fc4w := blend tau model.fc4w target.fc4w
  fc4b := blend tau model.fc4b target.fc4b

/-! ## Network construction (dqn.py lines 86-92)

`DQN.__init__` builds `self.model = MLP(in_dim, out_dim, hidden_sizes)`
and then `self.target_model = MLP(in_dim, out_dim, hidden_sizes)` as a
second, fresh network: each `nn.Linear` draws its weights and biases
from the global random stream, so the two networks consume successive
disjoint segments of that stream.  We model the stream as a function
`draws : ℕ → ℚ` and a construction as the consumption of one draw per
scalar parameter, in layer order. -/

/-- One freshly initialized parameter tensor of `len` scalars taken from
the random stream starting at position `start`. -/
def tensorFromDraws (draws : ℕ → ℚ) (start len : ℕ) : List ℚ :=
  (List.range len).map (fun i => draws (start + i))

/-- Flattened sizes of the eight tensors of
`MLP(inDim, outDim, hidden_sizes=(h1, h2, h3))`:
`nn.Linear(a, b)` has `b * a` weights and `b` biases. -/
def mlpSizes (inDim h1 h2 h3 outDim : ℕ) : List ℕ :=
  [h1 * inDim, h1, h2 * h1, h2, h3 * h2, h3, outDim * h3, outDim]

/-- Total number of scalar parameters of the MLP. -/
def mlpParamCount (inDim h1 h2 h3 outDim : ℕ) : ℕ :=
  (mlpSizes inDim h1 h2 h3 outDim).sum

/-- A freshly constructed `MLP(inDim, outDim, (h1, h2, h3))` whose
scalar parameters are the stream values at positions
`start, start+1, …` in layer order. -/
def mlpInit (draws : ℕ → ℚ) (start inDim h1 h2 h3 outDim : ℕ) : MLPParams :=
  let n1 := h1 * inDim
  let n2 := h1
  let n3 := h2 * h1
  let n4 := h2
  let n5 := h3 * h2
  let n6 := h3
  let n7 := outDim * h3
  let n8 := outDim
  { fc1w := tensorFromDraws draws start n1
    fc1b := tensorFromDraws draws (start + n1) n2
    fc2w := tensorFromDraws draws (start + n1 + n2) n3
    fc2b := tensorFromDraws draws (start + n1 + n2 + n3) n4
    fc3w := tensorFromDraws draws (start + n1 + n2 + n3 + n4) n5
    fc3b := tensorFromDraws draws (start + n1 + n2 + n3 + n4 + n5) n6
    fc4w := tensorFromDraws draws (start + n1 + n2 + n3 + n4 + n5 + n6) n7
    fc4b := tensorFromDraws draws (start + n1 + n2 + n3 + n4 + n5 + n6 + n7) n8 }

/-- The pair `(self.model, self.target_model)` built by `DQN.__init__`
(dqn.py lines 89-92): two fresh `MLP` constructions, the second one
consuming the random stream where the first one left off.  No parameter
values are copied from the first network into the second. -/
def dqnInitNetworks (draws : ℕ → ℚ) (inDim h1 h2 h3 outDim : ℕ) :
    MLPParams × MLPParams :=
  (mlpInit draws 0 inDim h1 h2 h3 outDim,
   mlpInit draws (mlpParamCount inDim h1 h2 h3 outDim) inDim h1 h2 h3 outDim)

/-! ## Replay memory (dqn.py lines 76, 111-115)

`self.memory = deque(maxlen=mem_size)`; `remember` appends one
transition.  A bounded deque holding at most `maxlen` items drops its
oldest (leftmost) item when an append would exceed `maxlen`. -/

/-- `deque(maxlen=c).append(x)`: append on the right; when the deque is
already full, the leftmost element is discarded first. -/
def dequeAppend (maxlen : ℕ) (buf : List α) (x : α) : List α :=
  if buf.length < maxlen then buf ++ [x]
  else (buf ++ [x]).drop (buf.length + 1 - maxlen)

/-- The memory contents after `remember`-ing the transitions of `ts` in
order into an initially empty `deque(maxlen=c)`. -/
def rememberAll (maxlen : ℕ) (ts : List α) : List α :=
  ts.foldl (dequeAppend maxlen) []

/-! ## Sampling (dqn.py line 123)

`random.sample(self.memory, self.memory_batch)` chooses `memory_batch`
pairwise-distinct positions of the population; every list of distinct
valid indices is a possible outcome, and no list with a repeated index
is.  The support of the sampler over index lists: -/

/-- The index lists that `random.sample(population, batchSize)` can
produce over a population of the given size: exactly the lists of
`batchSize` pairwise-distinct indices into `[0, size)`. -/
def samplePossible (size batchSize : ℕ) (ixs : List ℕ) : Prop :=
  ixs.length = batchSize ∧ ixs.Nodup ∧ ∀ i ∈ ixs, i < size

instance (size batchSize : ℕ) (ixs : List ℕ) :
    Decidable (samplePossible size batchSize ixs) := by
  unfold samplePossible; infer_instance

/-- Modelled from the spec: the index lists the spec's
uniform-with-replacement `sample` can produce — every list of
`batchSize` indices into `[0, size)`, duplicates allowed. -/
def specSamplePossible (size batchSize : ℕ) (ixs : List ℕ) : Prop :=
  ixs.length = batchSize ∧ ∀ i ∈ ixs, i < size

instance (size batchSize : ℕ) (ixs : List ℕ) :
    Decidable (specSamplePossible size batchSize ixs) := by
  unfold specSamplePossible; infer_instance

/-! ## The per-sample training target (dqn.py lines 124-135)

Inside `replay`, for each sampled `[state, action, reward, new_state,
done]` the code runs

    state     = torch.tensor(state).float().to(self.device)
    new_state = torch.tensor(state).float().to(self.device)
    target = self.target_model(state)
    if done:
        target[0][action] = reward
    else:
        Q_future = max(self.target_model(new_state)[0])
        target[0][action] = reward + Q_future * self.gamma

Note the second line: the local `new_state` is rebuilt from `state`,
not from the sampled `new_state`.  The target network is an opaque
function `Q` from states to rows of scalars. -/

/-- Maximum of a row of Q-values (Python `max` over a nonempty row). -/
def rowMax : List ℚ → ℚ
  | [] => 0
  | x :: xs => xs.foldl max x

/-- The training target computed by the `replay` body for one sample,
embedded from dqn.py lines 127-135 including the reassignment
`new_state = torch.tensor(state)` on line 128. -/
def replayTarget (Q : σ → List ℚ) (gamma : ℚ) (state newState : σ)
    (action : ℕ) (reward : ℚ) (done : Bool) : List ℚ :=
  let newState := state
  let target := Q state
  if done then
    target.set action reward
  else
    target.set action (reward + rowMax (Q newState) * gamma)

/-- Modelled from the spec: the Bellman target the spec describes — the
target network's row at `state` with the entry at `action` replaced by
`reward + gamma * max_a Q(next_state)[a]` when not done, by `reward`
when done. -/
def specReplayTarget (Q : σ → List ℚ) (gamma : ℚ) (state newState : σ)
    (action : ℕ) (reward : ℚ) (done : Bool) : List ℚ :=
  let target := Q state
  if done then
    target.set action reward
  else
    target.set action (reward + gamma * rowMax (Q newState))

/-! ## The replay guard (dqn.py lines 117-123)

`replay` first puts the live model in training mode, then returns
early — without raising anything — when the memory holds fewer than
`memory_batch` transitions; otherwise it samples and trains.  No
exception type named `EmptyBufferError` (or any other) appears anywhere
in the function. -/

/-- The observable state of the DQN agent that `replay` can touch. -/
structure DQNAgent (σ α : Type) where
  memory : List (Transition σ α)
  memoryBatch : ℕ
  modelParams : MLPParams
  targetParams : MLPParams
  optState : ℚ
  modelTraining : Bool
deriving DecidableEq, Repr

/-- `DQN.replay` (dqn.py lines 117-142): set the live model to training
mode; if `len(self.memory) < self.memory_batch`, return; otherwise run
the sampling-and-gradient-step body, here abstracted as `trainStep`. -/
def replay (trainStep : DQNAgent σ α → DQNAgent σ α) (a : DQNAgent σ α) :
    DQNAgent σ α :=
  let a1 := { a with modelTraining := true }
  if a1.memory.length < a1.memoryBatch then a1 else trainStep a1

/-- Outcome of a Python call: either a raised exception (by name) or a
normal return of the resulting agent state. -/
inductive PyOutcome (σ α : Type) where
  | raised (err : String)
  | returned (a : DQNAgent σ α)
deriving DecidableEq, Repr

/-- `DQN.replay` with its exception behaviour made explicit: the
function body contains no `raise`, so both the early-return path and
the training path return normally. -/
def replayRun (trainStep : DQNAgent σ α → DQNAgent σ α) (a : DQNAgent σ α) :
    PyOutcome σ α :=
  .returned (replay trainStep a)

/-! ## The DDPG done flag (engine.py line 123)

`done_bool = float(done) if episode_timesteps < env._max_episode_steps
else 0`. -/

/-- The `done` value stored into the DDPG replay buffer for one step. -/
def doneBool (done : Bool) (episodeTimesteps maxEpisodeSteps : ℕ) : ℚ :=
  if episodeTimesteps < maxEpisodeSteps then (if done then 1 else 0) else 0

/-! ## Epsilon decay in `DQN.act` (dqn.py lines 100-104)

    self.epsilon *= self.epsilon_decay
    self.epsilon = max(self.epsilon_min, self.epsilon)
-/

/-- The value of `self.epsilon` after the update at the start of one
`act` call. -/
def actEpsilon (epsMin epsDecay eps : ℚ) : ℚ :=
  max epsMin (eps * epsDecay)

/-- A constant one-scalar-per-tensor parameter set, for concrete
instantiations. -/
def mlpConst (q : ℚ) : MLPParams :=
  { fc1w := [q], fc1b := [q], fc2w := [q], fc2b := [q]
    fc3w := [q], fc3b := [q], fc4w := [q], fc4b := [q] }

/-! ## Theorems -/

lemma blend_getElem? (tau : ℚ) (l t : List ℚ) (i : ℕ) (x y : ℚ)
    (hl : l[i]? = some x) (ht : t[i]? = some y) :
    (blend tau l t)[i]? = some (tau * x + (1 - tau) * y) := by
  unfold blend
  rw [List.getElem?_zipWith_eq_some]
  exact ⟨x, y, hl, ht, by ring⟩

/-- C5: one `target_train` call with blend coefficient `tau` maps every
scalar parameter pair at identical position, in every one of the eight
parameter tensors of the network, by
`target_p ← tau * live_p + (1 - tau) * target_p`. -/
theorem target_train_blends_every_param (tau : ℚ) (m t : MLPParams) (i : ℕ)
    (x y : ℚ) :
    (m.fc1w[i]? = some x → t.fc1w[i]? = some y →
      (target_train tau m t).fc1w[i]? = some (tau * x + (1 - tau) * y)) ∧
    (m.fc1b[i]? = some x → t.fc1b[i]? = some y →
      (target_train tau m t).fc1b[i]? = some (tau * x + (1 - tau) * y)) ∧
    (m.fc2w[i]? = some x → t.fc2w[i]? = some y →
      (target_train tau m t).fc2w[i]? = some (tau * x + (1 - tau) * y)) ∧
    (m.fc2b[i]? = some x → t.fc2b[i]? = some y →
      (target_train tau m t).fc2b[i]? = some (tau * x + (1 - tau) * y)) ∧
    (m.fc3w[i]? = some x → t.fc3w[i]? = some y →
      (target_train tau m t).fc3w[i]? = some (tau * x + (1 - tau) * y)) ∧
    (m.fc3b[i]? = some x → t.fc3b[i]? = some y →
      (target_train tau m t).fc3b[i]? = some (tau * x + (1 - tau) * y)) ∧
    (m.fc4w[i]? = some x → t.fc4w[i]? = some y →
      (target_train tau m t).fc4w[i]? = some (tau * x + (1 - tau) * y)) ∧
    (m.fc4b[i]? = some x → t.fc4b[i]? = some y →
      (target_train tau m t).fc4b[i]? = some (tau * x + (1 - tau) * y)) :=
  ⟨fun hl ht => blend_getElem? tau _ _ i x y hl ht,
   fun hl ht => blend_getElem? tau _ _ i x y hl ht,
   fun hl ht => blend_getElem? tau _ _ i x y hl ht,
   fun hl ht => blend_getElem? tau _ _ i x y hl ht,
   fun hl ht => blend_getElem? tau _ _ i x y hl ht,
   fun hl ht => blend_getElem? tau _ _ i x y hl ht,
   fun hl ht => blend_getElem? tau _ _ i x y hl ht,
   fun hl ht => blend_getElem? tau _ _ i x y hl ht⟩

/-- Witness for C5 at `tau = 1/2`, live scalar `2`, target scalar `4`
in every tensor: the blended scalar is `3` in every tensor. -/
theorem target_train_blends_every_param_witness :
    (target_train (1/2) (mlpConst 2) (mlpConst 4)).fc1w[0]? = some 3 ∧
    (target_train (1/2) (mlpConst 2) (mlpConst 4)).fc1b[0]? = some 3 ∧
    (target_train (1/2) (mlpConst 2) (mlpConst 4)).fc2w[0]? = some 3 ∧
    (target_train (1/2) (mlpConst 2) (mlpConst 4)).fc2b[0]? = some 3 ∧
    (target_train (1/2) (mlpConst 2) (mlpConst 4)).fc3w[0]? = some 3 ∧
    (target_train (1/2) (mlpConst 2) (mlpConst 4)).fc3b[0]? = some 3 ∧
    (target_train (1/2) (mlpConst 2) (mlpConst 4)).fc4w[0]? = some 3 ∧
    (target_train (1/2) (mlpConst 2) (mlpConst 4)).fc4b[0]? = some 3 := by
  have h := target_train_blends_every_param (1/2) (mlpConst 2) (mlpConst 4) 0 2 4
  have e : (1/2 : ℚ) * 2 + (1 - 1/2) * 4 = 3 := by norm_num
  refine ⟨?_, ?_, ?_, ?_, ?_, ?_, ?_, ?_⟩
  · exact e ▸ h.1 rfl rfl
  · exact e ▸ h.2.1 rfl rfl
  · exact e ▸ h.2.2.1 rfl rfl
  · exact e ▸ h.2.2.2.1 rfl rfl
  · exact e ▸ h.2.2.2.2.1 rfl rfl
  · exact e ▸ h.2.2.2.2.2.1 rfl rfl
  · exact e ▸ h.2.2.2.2.2.2.1 rfl rfl
  · exact e ▸ h.2.2.2.2.2.2.2 rfl rfl

lemma dequeAppend_length {α : Type} (c : ℕ) (b : List α) (x : α)
    (h : b.length ≤ c) :
    (dequeAppend c b x).length = min (b.length + 1) c := by
  unfold dequeAppend
  split <;> simp <;> omega

lemma dequeAppend_eq_drop {α : Type} (c : ℕ) (b : List α) (x : α)
    (h : b.length ≤ c) :
    dequeAppend c b x = (b ++ [x]).drop (b.length + 1 - c) := by
  unfold dequeAppend
  split
  · have h0 : b.length + 1 - c = 0 := by omega
    rw [h0, List.drop_zero]
  · rfl

lemma foldl_dequeAppend_length {α : Type} (c : ℕ) :
    ∀ (ts b : List α), b.length ≤ c →
      (ts.foldl (dequeAppend c) b).length = min (b.length + ts.length) c := by
  intro ts
  induction ts with
  | nil => intro b h; simp; omega
  | cons x ts ih =>
    intro b h
    rw [List.foldl_cons]
    have hb' : (dequeAppend c b x).length ≤ c := by
      rw [dequeAppend_length c b x h]; omega
    rw [ih (dequeAppend c b x) hb', dequeAppend_length c b x h]
    simp; omega

/-- C7: after any sequence of `remember` calls into a fresh
`deque(maxlen=c)`, the memory length equals `min`(number of calls, c);
in particular it never exceeds the capacity. -/
theorem rememberAll_length {α : Type} (c : ℕ) (ts : List α) :
    (rememberAll c ts).length = min ts.length c := by
  unfold rememberAll
  rw [foldl_dequeAppend_length c ts [] (by simp)]
  simp

lemma foldl_dequeAppend_eq_drop {α : Type} (c : ℕ) :
    ∀ (ts b : List α), b.length ≤ c →
      ts.foldl (dequeAppend c) b = (b ++ ts).drop (b.length + ts.length - c) := by
  intro ts
  induction ts with
  | nil =>
    intro b h
    have h0 : b.length - c = 0 := by omega
    simp [h0]
  | cons x ts ih =>
    intro b h
    rw [List.foldl_cons]
    have hb' : (dequeAppend c b x).length ≤ c := by
      rw [dequeAppend_length c b x h]; omega
    rw [ih (dequeAppend c b x) hb', dequeAppend_eq_drop c b x h]
    have hd : b.length + 1 - c ≤ (b ++ [x]).length := by simp
    rw [← List.drop_append_of_le_length hd, List.drop_drop]
    have harr : (b ++ [x]) ++ ts = b ++ (x :: ts) := by simp
    rw [harr]
    congr 1
    simp only [List.length_drop, List.length_append, List.length_cons,
      List.length_nil]
    omega

/-- C6: adding `c + k` transitions (`k ≥ 1`) into a fresh
`deque(maxlen=c)` leaves exactly the most recent `c` of them, in order:
the first `k` have been evicted first-in-first-out. -/
theorem rememberAll_fifo {α : Type} (c k : ℕ) (ts : List α)
    (hk : 1 ≤ k) (hlen : ts.length = c + k) :
    rememberAll c ts = ts.drop k := by
  unfold rememberAll
  rw [foldl_dequeAppend_eq_drop c ts [] (by simp)]
  simp [hlen]

/-- Witness for C6 at capacity `2` and the four additions
`[10, 20, 30, 40]`: the buffer afterwards is `[30, 40]`. -/
theorem rememberAll_fifo_witness :
    rememberAll 2 [10, 20, 30, 40] = ([10, 20, 30, 40].drop 2 : List ℕ) :=
  rememberAll_fifo 2 2 [10, 20, 30, 40] (by norm_num) (by simp)

/-- C8: the `done` value stored by the DDPG loop is `0` whenever the
episode's step count has reached the environment's maximum episode
length, regardless of the environment's reported flag; otherwise it is
the numeric value of the reported flag. -/
theorem doneBool_truncation (done : Bool) (ts mx : ℕ) :
    (mx ≤ ts → doneBool done ts mx = 0) ∧
    (ts < mx → doneBool done ts mx = (if done then 1 else 0)) := by
  constructor
  · intro h; unfold doneBool; rw [if_neg (by omega)]
  · intro h; unfold doneBool; rw [if_pos h]

/-- Witness for C8: with the environment reporting `done = true`, step
count 5 of a 5-step-max episode stores `0`, while step count 4 stores
`1`. -/
theorem doneBool_truncation_witness :
    doneBool true 5 5 = 0 ∧ doneBool true 4 5 = (if true then 1 else 0) :=
  ⟨(doneBool_truncation true 5 5).1 (le_refl 5),
   (doneBool_truncation true 4 5).2 (by norm_num)⟩

/-- C9: with fewer than `memory_batch` transitions in memory, `replay`
leaves the live parameters, the target parameters, the optimizer state
and the memory unchanged and performs no gradient step (the result does
not depend on the training body at all; only the training-mode flag is
set). -/
theorem replay_small_memory_noop {σ α : Type}
    (trainStep : DQNAgent σ α → DQNAgent σ α) (a : DQNAgent σ α)
    (h : a.memory.length < a.memoryBatch) :
    (replay trainStep a).modelParams = a.modelParams ∧
    (replay trainStep a).targetParams = a.targetParams ∧
    (replay trainStep a).optState = a.optState ∧
    (replay trainStep a).memory = a.memory ∧
    replay trainStep a = { a with modelTraining := true } := by
  have hcond : ({ a with modelTraining := true } : DQNAgent σ α).memory.length <
      ({ a with modelTraining := true } : DQNAgent σ α).memoryBatch := h
  have hres : replay trainStep a = { a with modelTraining := true } :=
    if_pos hcond
  exact ⟨by rw [hres], by rw [hres], by rw [hres], by rw [hres], hres⟩

/-- A concrete transition for instantiations. -/
def sampleTransition : Transition ℕ ℕ :=
  { state := 0, action := 1, reward := 2, nextState := 3, done := false }

/-- A concrete agent whose memory (one transition) is smaller than its
batch size (five). -/
def agentShortMem : DQNAgent ℕ ℕ :=
  { memory := [sampleTransition], memoryBatch := 5
    modelParams := mlpConst 1, targetParams := mlpConst 2
    optState := 7, modelTraining := false }

/-- Witness for C9 on a concrete agent holding one transition with
batch size five. -/
theorem replay_small_memory_noop_witness :
    (replay id agentShortMem).modelParams = agentShortMem.modelParams ∧
    (replay id agentShortMem).targetParams = agentShortMem.targetParams ∧
    (replay id agentShortMem).optState = agentShortMem.optState ∧
    (replay id agentShortMem).memory = agentShortMem.memory ∧
    replay id agentShortMem = { agentShortMem with modelTraining := true } :=
  replay_small_memory_noop id agentShortMem (by decide)

/-- A concrete agent with an empty memory and `memory_batch = 32` (the
repository's configured batch size). -/
def agentEmptyMem : DQNAgent ℕ ℕ :=
  { memory := [], memoryBatch := 32
    modelParams := mlpConst 0, targetParams := mlpConst 0
    optState := 0, modelTraining := false }

/-- C4 counterexample: calling `replay` on a buffer of size 0 (with
`memory_batch = 32`) does not raise `EmptyBufferError` — it returns
normally, having only set the training-mode flag. -/
theorem replay_empty_returns_silently :
    replayRun id agentEmptyMem ≠
      PyOutcome.raised (σ := ℕ) (α := ℕ) "EmptyBufferError" ∧
    replayRun id agentEmptyMem =
      PyOutcome.returned { agentEmptyMem with modelTraining := true } := by
  decide

/-- C4 amended: `replay` on a buffer with fewer transitions than
`memory_batch` — in particular on an empty buffer — raises nothing and
returns silently before sampling. -/
theorem replay_no_raise {σ α : Type}
    (trainStep : DQNAgent σ α → DQNAgent σ α) (a : DQNAgent σ α)
    (h : a.memory.length < a.memoryBatch) :
    replayRun trainStep a =
      PyOutcome.returned { a with modelTraining := true } := by
  unfold replayRun replay
  rw [if_pos h]

/-- Witness for the amended C4 at the concrete empty-memory agent. -/
theorem replay_no_raise_witness :
    replayRun id agentEmptyMem =
      PyOutcome.returned { agentEmptyMem with modelTraining := true } :=
  replay_no_raise id agentEmptyMem (by decide)

/-- C2 counterexample: over a buffer of size 2 and batch size 2, the
duplicate index list `[0, 0]` is a possible outcome of the spec's
uniform-with-replacement sampler, but is not a possible outcome of the
code's `random.sample`, which never produces duplicates. -/
theorem sample_with_replacement_cex :
    specSamplePossible 2 2 [0, 0] ∧ ¬ samplePossible 2 2 [0, 0] := by
  decide

/-- C2 amended: `sample` draws its `batchSize` indices without
replacement: every possible batch consists of pairwise-distinct indices
into `[0, size)` (so a batch never contains duplicate rows, and a batch
is only possible when `batchSize ≤ size`); every such batch is in
particular one the spec's sampler could produce. -/
theorem samplePossible_nodup (size batchSize : ℕ) (ixs : List ℕ)
    (h : samplePossible size batchSize ixs) :
    ixs.Nodup ∧ batchSize ≤ size ∧ specSamplePossible size batchSize ixs := by
  obtain ⟨hlen, hnd, hmem⟩ := h
  refine ⟨hnd, ?_, hlen, hmem⟩
  have hsub : ixs.toFinset ⊆ Finset.range size := by
    intro a ha
    rw [Finset.mem_range]
    exact hmem a (List.mem_toFinset.mp ha)
  have hcard := Finset.card_le_card hsub
  rw [Finset.card_range, List.toFinset_card_of_nodup hnd] at hcard
  omega

/-- Witness for the amended C2 at size 3, batch size 2, indices
`[2, 0]`. -/
theorem samplePossible_nodup_witness :
    ([2, 0] : List ℕ).Nodup ∧ 2 ≤ 3 ∧ specSamplePossible 3 2 [2, 0] :=
  samplePossible_nodup 3 2 [2, 0] (by decide)

/-- The random stream 0, 1, 2, … for concrete instantiations. -/
def seqDraws : ℕ → ℚ := fun i => (i : ℚ)

/-- C3 counterexample: constructing the agent's two networks with all
dimensions 1 over the stream 0, 1, 2, … gives the live network the fc1
weight `[0]` and the target network the fc1 weight `[8]`: the target's
parameters are not a copy of the live ones at construction. -/
theorem dqnInit_target_not_copy :
    (dqnInitNetworks seqDraws 1 1 1 1 1).1.fc1w = [(0 : ℚ)] ∧
    (dqnInitNetworks seqDraws 1 1 1 1 1).2.fc1w = [(8 : ℚ)] ∧
    (dqnInitNetworks seqDraws 1 1 1 1 1).2.fc1w ≠
      (dqnInitNetworks seqDraws 1 1 1 1 1).1.fc1w := by
  refine ⟨?_, ?_, ?_⟩ <;>
    simp [dqnInitNetworks, mlpInit, mlpParamCount, mlpSizes, tensorFromDraws,
      seqDraws, List.range_succ]

/-- C3 amended: at construction the target network is a structural
clone of the live one — all eight parameter tensors have equal
shapes — but its values are fresh draws from the continuation of the
random stream, not copies. -/
theorem dqnInit_structural_clone (draws : ℕ → ℚ)
    (inDim h1 h2 h3 outDim : ℕ) :
    (dqnInitNetworks draws inDim h1 h2 h3 outDim).1.fc1w.length =
      (dqnInitNetworks draws inDim h1 h2 h3 outDim).2.fc1w.length ∧
    (dqnInitNetworks draws inDim h1 h2 h3 outDim).1.fc1b.length =
      (dqnInitNetworks draws inDim h1 h2 h3 outDim).2.fc1b.length ∧
    (dqnInitNetworks draws inDim h1 h2 h3 outDim).1.fc2w.length =
      (dqnInitNetworks draws inDim h1 h2 h3 outDim).2.fc2w.length ∧
    (dqnInitNetworks draws inDim h1 h2 h3 outDim).1.fc2b.length =
      (dqnInitNetworks draws inDim h1 h2 h3 outDim).2.fc2b.length ∧
    (dqnInitNetworks draws inDim h1 h2 h3 outDim).1.fc3w.length =
      (dqnInitNetworks draws inDim h1 h2 h3 outDim).2.fc3w.length ∧
    (dqnInitNetworks draws inDim h1 h2 h3 outDim).1.fc3b.length =
      (dqnInitNetworks draws inDim h1 h2 h3 outDim).2.fc3b.length ∧
    (dqnInitNetworks draws inDim h1 h2 h3 outDim).1.fc4w.length =
      (dqnInitNetworks draws inDim h1 h2 h3 outDim).2.fc4w.length ∧
    (dqnInitNetworks draws inDim h1 h2 h3 outDim).1.fc4b.length =
      (dqnInitNetworks draws inDim h1 h2 h3 outDim).2.fc4b.length := by
  refine ⟨?_, ?_, ?_, ?_, ?_, ?_, ?_, ?_⟩ <;>
    simp [dqnInitNetworks, mlpInit, tensorFromDraws]

/-- A concrete target network: `Q(0) = [1]`, `Q(s) = [5]` otherwise. -/
def QCex : ℕ → List ℚ := fun s => if s = 0 then [1] else [5]

/-- C1: at the transition (state 0, next_state 1, action 0, reward 0,
done = false) with gamma 1 and target net `QCex`, the code's target is
`[1]` — `reward + gamma * max QCex(state)` — because line 128 rebuilds
the local `new_state` from `state`; the Bellman target of the claim,
`reward + gamma * max QCex(next_state)` in the `Q(state)` row, is `[5]`. -/
theorem replayTarget_uses_state_not_next_state :
    replayTarget QCex 1 0 1 0 0 false = [1] ∧
    specReplayTarget QCex 1 0 1 0 0 false = [5] ∧
    replayTarget QCex 1 0 1 0 0 false ≠
      specReplayTarget QCex 1 0 1 0 0 false := by
  refine ⟨?_, ?_, ?_⟩ <;>
    norm_num [replayTarget, specReplayTarget, QCex, rowMax]

/-- C10 counterexample: with `epsilon_min = -1` and
`epsilon_decay = 1/2` (which satisfies `0 < decay ≤ 1`), starting from
`epsilon = -2`, the epsilon value after the second `act` call (`-1/2`)
is strictly greater than after the first (`-1`): the sequence of
epsilon values is not non-increasing. -/
theorem actEpsilon_not_antitone_cex :
    (0 : ℚ) < 1/2 ∧ (1/2 : ℚ) ≤ 1 ∧
    actEpsilon (-1) (1/2) (-2) = -1 ∧
    actEpsilon (-1) (1/2) (actEpsilon (-1) (1/2) (-2)) = -1/2 ∧
    ¬ actEpsilon (-1) (1/2) (actEpsilon (-1) (1/2) (-2)) ≤
        actEpsilon (-1) (1/2) (-2) := by
  refine ⟨by norm_num, by norm_num, ?_, ?_, ?_⟩ <;>
    norm_num [actEpsilon, max_def]

/-- C10 amended: each `act` call sets epsilon to
`max(epsilon_min, epsilon * epsilon_decay)`; if `0 < epsilon_decay ≤ 1`
and additionally `0 ≤ epsilon_min`, then after any positive number of
`act` calls epsilon is at least `epsilon_min`, and from the first call
onward the epsilon values are non-increasing. -/
theorem actEpsilon_bounded_antitone (epsMin d eps0 : ℚ) (n : ℕ)
    (hd0 : 0 < d) (hd1 : d ≤ 1) (hmin : 0 ≤ epsMin) :
    epsMin ≤ (actEpsilon epsMin d)^[n + 1] eps0 ∧
    (actEpsilon epsMin d)^[n + 2] eps0 ≤ (actEpsilon epsMin d)^[n + 1] eps0 := by
  have hlow : epsMin ≤ (actEpsilon epsMin d)^[n + 1] eps0 := by
    rw [Function.iterate_succ_apply']
    exact le_max_left _ _
  refine ⟨hlow, ?_⟩
  have hstep : (n : ℕ) + 2 = (n + 1) + 1 := rfl
  rw [hstep, Function.iterate_succ_apply']
  set e := (actEpsilon epsMin d)^[n + 1] eps0 with he
  have he0 : 0 ≤ e := le_trans hmin hlow
  have hmul : e * d ≤ e := by nlinarith
  exact max_le hlow hmul

/-- Witness for the amended C10 at `epsilon_min = 0`,
`epsilon_decay = 1/2`, initial epsilon 1, after one and two calls. -/
theorem actEpsilon_bounded_antitone_witness :
    (0 : ℚ) ≤ (actEpsilon 0 (1/2))^[1] 1 ∧
    (actEpsilon 0 (1/2))^[2] 1 ≤ (actEpsilon 0 (1/2))^[1] 1 :=
  actEpsilon_bounded_antitone 0 (1/2) 1 0 (by norm_num) (by norm_num)
    (le_refl 0)

end RLBasics
